import Mathlib

/-!
Shallow embedding of `src/tools/optimizer-server/src/main.rs` (the
namespace-joined fanotify access-event tracer of nydus-snapshotter).

The Rust program is sequential inside each process; all interaction with
the operating system (fanotify syscalls, `/proc` symlink resolution,
`fs::metadata`, `poll`, signal delivery, `fork`, `waitpid`) is modelled as
an environment: each record and each poll iteration carries the outcome
the OS returned for it, and the embedded functions are pure state
transformers over those outcomes, mirroring the Rust control flow
branch by branch.
-/

namespace OptimizerServer

/-- `struct EventInfo { path, size, elapsed }` (main.rs lines 40-45).
`size` is a `u64`, `elapsed` a `u128`; both are byte/microsecond counts and
never overflow in practice, modelled as `Nat`. -/
structure EventInfo where
  path : String
  size : Nat
  elapsed : Nat
deriving DecidableEq, Repr

/-- One unit written to the child's standard output: either the JSON
serialization of an `EventInfo` (`send_event`, lines 164-171) or the
`println!("received SIGTERM signal")` line (line 224). -/
inductive OutItem where
  | eventJson (info : EventInfo)
  | sigtermMsg
deriving DecidableEq, Repr

/-- One diagnostic line written to standard error (`eprintln!` calls). -/
inductive ErrItem where
  | handleFail (fd : Int)
  | polledZero
  | pollError (errno : Nat)
  | socketPairFail
  | sigRegisterFail
  | joinNsFail
  | startFail (errno : Nat)
  | forkFail (errno : Nat)
  | forkedInfo (pid : Int) (pgid : Int)
  | pgidFail (pid : Int)
  | childSignaled (pid : Int) (signal : Nat)
  | childStopped (pid : Int) (signal : Nat)
  | waitFail (errno : Nat)
deriving DecidableEq, Repr

deriving instance DecidableEq for Except

/-- The OS-determined outcomes for one drained `FanotifyEvent` record as it
is handled by `handle_event` (lines 173-181): the record's embedded file
descriptor, the result of `get_fd_path(event.fd)` (line 97-100, a
`readlink` of `/proc/self/fd/{fd}`), the result of `fs::metadata` inside
`generate_event_info` (lines 156-162, yielding the size on success), the
value `BEGIN_TIME.elapsed().as_micros()` at that moment, and the result of
`send_event` (lines 164-171) if it is attempted. Errors are carried as OS
error numbers. -/
structure RecordRun where
  fd : Int
  resolveRes : Except Nat String
  metaRes : Except Nat Nat
  elapsed : Nat
  sendRes : Except Nat Unit
deriving DecidableEq, Repr

/-- `SendError` (main.rs lines 82-87): an `io::Error` or a serde error;
carried here only as far as the control flow distinguishes it (it does
not — every arm is logged the same way). -/
inductive SendErr where
  | ioErr (errno : Nat)
  | serde
deriving DecidableEq, Repr

/-- `generate_event_info` (lines 156-162): maps the `fs::metadata` result
to an `EventInfo` holding the path, the metadata length and the elapsed
microseconds since `BEGIN_TIME`. -/
def generate_event_info (path : String) (metaRes : Except Nat Nat)
    (elapsed : Nat) : Except Nat EventInfo :=
  metaRes.map fun size => { path := path, size := size, elapsed := elapsed }

/-- `handle_event` (lines 173-181) as a pure function: takes the record's
OS outcomes and the current `event_duplicate` vector, returns the
`Result`, the updated vector, and the items written to standard output.
Mirrors the Rust statement by statement:
`get_fd_path(event.fd)?`, then `generate_event_info(&path)?`, then
`if !event_duplicate.contains(&info.path) { send_event(&info)?;
event_duplicate.push(info.path); }`. -/
def handle_event (r : RecordRun) (event_duplicate : List String) :
    Except SendErr Unit × List String × List OutItem :=
  match r.resolveRes with
  | .error e => (.error (.ioErr e), event_duplicate, [])
  | .ok path =>
    match generate_event_info path r.metaRes r.elapsed with
    | .error e => (.error (.ioErr e), event_duplicate, [])
    | .ok info =>
      if event_duplicate.contains info.path then
        (.ok (), event_duplicate, [])
      else
        match r.sendRes with
        | .error e => (.error (.ioErr e), event_duplicate, [])
        | .ok _ =>
          (.ok (), event_duplicate ++ [info.path], [.eventJson info])

/-- The mutable state of the child's wait loop: the `event_duplicate`
vector, everything written so far to standard output and standard error,
and the trace of file descriptors passed to `close_fd` (lines 150-154),
in call order. -/
structure ChildState where
  dup : List String
  stdoutTrace : List OutItem
  stderrTrace : List ErrItem
  closed : List Int
deriving DecidableEq, Repr

/-- The body of `for event in events { ... }` (lines 212-218): call
`handle_event`, log on error, and unconditionally `close_fd(event.fd)`. -/
def processRecord (s : ChildState) (r : RecordRun) : ChildState :=
  match handle_event r s.dup with
  | (.error _e, dup1, out) =>
    { dup := dup1, stdoutTrace := s.stdoutTrace ++ out,
      stderrTrace := s.stderrTrace ++ [.handleFail r.fd],
      closed := s.closed ++ [r.fd] }
  | (.ok _, dup1, out) =>
    { dup := dup1, stdoutTrace := s.stdoutTrace ++ out,
      stderrTrace := s.stderrTrace, closed := s.closed ++ [r.fd] }

/-- Processing a whole drained batch (the `for` loop over
`read_fanotify(fd)`), and — because the `event_duplicate` vector persists
across iterations of the outer `loop` — also the composition of all
batches of a run. -/
def processRecords (s : ChildState) (rs : List RecordRun) : ChildState :=
  rs.foldl processRecord s

/-- The outcome the OS returns for one `poll(&mut fds, -1)` call
(line 202): either `Ok(polled_num)` together with the readiness of
`fds[0]` (the fanotify descriptor; `true` when its revents contain
`POLLIN`) and of `fds[1]` (the SIGTERM self-pipe reader), plus the batch
of records `read_fanotify` would drain if the fanotify branch runs — or
`Err(errno)`. -/
inductive PollOutcome where
  | polled (polledNum : Int) (fanReady : Bool) (termReady : Bool)
      (records : List RecordRun)
  | pollErr (errno : Nat)
deriving DecidableEq, Repr

/-- Result of one iteration of the child's `loop`: keep looping with a new
state, or `break` out with a final state. -/
inductive StepRes where
  | next (s : ChildState)
  | broke (s : ChildState)
deriving DecidableEq, Repr

/-- The `nix::Error::EINTR` errno value compared against on line 230. -/
def EINTR : Nat := 4

/-- One iteration of the `loop` in `handle_fanotify_event`
(lines 201-237), branch by branch:
`Ok(polled_num)` with `polled_num <= 0` logs and breaks; otherwise the
fanotify branch drains and processes records when `fds[0]` has `POLLIN`,
then the termination branch prints `received SIGTERM signal` and breaks
when `fds[1]` has `POLLIN`; `Err(EINTR)` continues with the state
untouched; any other `Err` logs and breaks. -/
def loopStep (s : ChildState) (o : PollOutcome) : StepRes :=
  match o with
  | .pollErr e =>
    if e = EINTR then .next s
    else .broke { s with stderrTrace := s.stderrTrace ++ [.pollError e] }
  | .polled n fanReady termReady records =>
    if n ≤ 0 then
      .broke { s with stderrTrace := s.stderrTrace ++ [.polledZero] }
    else
      let s1 := if fanReady then processRecords s records else s
      if termReady then
        .broke { s1 with stdoutTrace := s1.stdoutTrace ++ [.sigtermMsg] }
      else .next s1

/-- A finite run of the child's wait loop against a trace of poll
outcomes: `stopped` when some iteration executed `break` (any remaining
trace elements are never observed), `running` when the trace was consumed
without breaking. -/
inductive RunRes where
  | running (s : ChildState)
  | stopped (s : ChildState)
deriving DecidableEq, Repr

/-- The state carried by a `RunRes`. -/
def RunRes.state : RunRes → ChildState
  | .running s => s
  | .stopped s => s

/-- Iterate `loopStep` over a trace of poll outcomes. -/
def runLoop (s : ChildState) : List PollOutcome → RunRes
  | [] => .running s
  | o :: os =>
    match loopStep s o with
    | .next s1 => runLoop s1 os
    | .broke s1 => .stopped s1

/-- The loop state at the top of `handle_fanotify_event` (line 184):
empty `event_duplicate`, nothing written, nothing closed. -/
def initChildState : ChildState :=
  { dup := [], stdoutTrace := [], stderrTrace := [], closed := [] }

/-- OS outcomes for the child-only setup in `handle_fanotify_event`
(lines 183-199): whether `UnixStream::pair()` succeeds, whether
`pipe::register(SIGTERM, writer)` succeeds, and the poll trace the loop
will see. -/
structure ChildEnv where
  socketPairOk : Bool
  sigRegisterOk : Bool
  pollTrace : List PollOutcome
deriving DecidableEq, Repr

/-- Result of the child branch: its final loop state and whether the wait
loop was entered at all. -/
structure ChildRun where
  finalState : ChildState
  enteredLoop : Bool
deriving DecidableEq, Repr

/-- `handle_fanotify_event` (lines 183-238): socket-pair creation failure
or SIGTERM-handler registration failure is logged and the function
returns before the loop; otherwise the loop runs over the poll trace. -/
def handle_fanotify_event (env : ChildEnv) : ChildRun :=
  if !env.socketPairOk then
    { finalState := { initChildState with stderrTrace := [.socketPairFail] },
      enteredLoop := false }
  else if !env.sigRegisterOk then
    { finalState := { initChildState with stderrTrace := [.sigRegisterFail] },
      enteredLoop := false }
  else
    { finalState := (runLoop initChildState env.pollTrace).state,
      enteredLoop := true }

/-- OS outcomes for `start_fanotify` (lines 240-245): the
`fanotify_init` result (an fd or an errno, lines 107-117), the
`fanotify_mark` result (lines 119-133), and the child environment. -/
structure StartEnv where
  initRes : Except Nat Int
  markRes : Except Nat Unit
  child : ChildEnv
deriving DecidableEq, Repr

/-- `start_fanotify` (lines 240-245): `init_fanotify()?`, then
`mark_fanotify(fd, ...)?`, then `handle_fanotify_event(fd)`. The `?`
operator propagates the first error without entering the loop. -/
def start_fanotify (env : StartEnv) : Except Nat ChildRun :=
  match env.initRes with
  | .error e => .error e
  | .ok _fd =>
    match env.markRes with
    | .error e => .error e
    | .ok _ => .ok (handle_fanotify_event env.child)

/-- `nix::sys::wait::WaitStatus` as matched by `main` (lines 274-285),
together with the `waitpid` error case. `exitedNormally` is
`WaitStatus::Exited`; `otherStatus` stands for the remaining variants
(`Continued`, `StillAlive`, ...) that also fall into the `_ => {}` arm. -/
inductive WaitRes where
  | exitedNormally (pid : Int) (code : Int)
  | signaled (pid : Int) (signal : Nat) (coreDumped : Bool)
  | stoppedBySig (pid : Int) (signal : Nat)
  | otherStatus
  | waitErr (errno : Nat)
deriving DecidableEq, Repr

/-- The `match waitpid(child, None)` statement (lines 274-285): the log
lines it produces. `Signaled`, `Stopped` and `Err` each print a distinct
line; `_ => {}` — which includes a normal `Exited` status — prints
nothing. -/
def classifyWait : WaitRes → List ErrItem
  | .signaled pid signal _ => [.childSignaled pid signal]
  | .stoppedBySig pid signal => [.childStopped pid signal]
  | .waitErr e => [.waitFail e]
  | .exitedNormally _ _ => []
  | .otherStatus => []

/-- Which branch of `fork()` (line 261) the modelled process ends up in,
with the OS outcomes that branch needs: the parent gets the child pid,
the `getpgid` result and the `waitpid` result. -/
inductive ForkOutcome where
  | child
  | parent (childPid : Int) (pgidRes : Except Nat Int) (waitRes : WaitRes)
  | forkFailed (errno : Nat)
deriving DecidableEq, Repr

/-- `SetnsError` (lines 75-80): `IO(io::Error)` from opening the
namespace file, or `Nix(nix::Error)` from the `setns` call. -/
inductive SetnsErr where
  | ioOpen (errno : Nat)
  | nix (errno : Nat)
deriving DecidableEq, Repr

/-- OS outcomes for one run of `main` (lines 253-291): the optional
`_MNTNS_PID` value, the `join_namespace` result used when it is present,
the fork branch, and the child-branch environment. -/
structure MainEnv where
  pidEnv : Option String
  joinRes : Except SetnsErr Unit
  forkRes : ForkOutcome
  startEnv : StartEnv
deriving DecidableEq, Repr

/-- What one modelled process run produces. `exitCode` is the process
exit status: the Rust `main` returns `()` on every path (it never calls
`process::exit` and no modelled path panics), so the status is always 0. -/
structure MainResult where
  exitCode : Nat
  stdoutTrace : List OutItem
  stderrTrace : List ErrItem
  enteredLoop : Bool
deriving DecidableEq, Repr

/-- The fork match of `main` (lines 261-290), from the perspective of the
process selected by `forkRes`: the child runs `start_fanotify` and logs
its error if any; the parent logs the pid/pgid line (or the `getpgid`
failure), then waits and classifies; a failed fork is logged. -/
def mainForked (env : MainEnv) : MainResult :=
  match env.forkRes with
  | .child =>
    match start_fanotify env.startEnv with
    | .error e =>
      { exitCode := 0, stdoutTrace := [], stderrTrace := [.startFail e],
        enteredLoop := false }
    | .ok cr =>
      { exitCode := 0, stdoutTrace := cr.finalState.stdoutTrace,
        stderrTrace := cr.finalState.stderrTrace,
        enteredLoop := cr.enteredLoop }
  | .parent childPid pgidRes waitRes =>
    let pgidLine : List ErrItem :=
      match pgidRes with
      | .ok pgid => [.forkedInfo childPid pgid]
      | .error _ => [.pgidFail childPid]
    { exitCode := 0, stdoutTrace := [],
      stderrTrace := pgidLine ++ classifyWait waitRes, enteredLoop := false }
  | .forkFailed e =>
    { exitCode := 0, stdoutTrace := [], stderrTrace := [.forkFail e],
      enteredLoop := false }

/-- `main` (lines 253-291): when `_MNTNS_PID` is set, `join_namespace`
failure is logged and the process returns (exit status 0) before the
fork; otherwise control reaches the fork match. -/
def mainRun (env : MainEnv) : MainResult :=
  match env.pidEnv with
  | some _pid =>
    match env.joinRes with
    | .error _e =>
      { exitCode := 0, stdoutTrace := [], stderrTrace := [.joinNsFail],
        enteredLoop := false }
    | .ok _ => mainForked env
  | none => mainForked env

/-- Round `off` up to the next multiple of the alignment `a` (C struct
field placement). -/
def alignUp (off a : Nat) : Nat := ((off + a - 1) / a) * a

/-- Size of a `#[repr(C)]` struct given its fields as (size, alignment)
pairs on x86-64: place each field at its aligned offset, then round the
total up to the struct's alignment. -/
def reprCSize (fields : List (Nat × Nat)) : Nat :=
  let acc := fields.foldl
    (fun (acc : Nat × Nat) f => (alignUp acc.1 f.2 + f.1, max acc.2 f.2))
    (0, 1)
  alignUp acc.1 acc.2

/-- The fields of `struct FanotifyEvent` (lines 28-38) in declaration
order with their x86-64 sizes and alignments:
`event_len: u32`, `vers: u8`, `reserved: u8`, `metadata_len: u16`,
`mask: u64`, `fd: i32`, `pid: i32`. -/
def fanotifyEventFields : List (Nat × Nat) :=
  [(4, 4), (1, 1), (1, 1), (2, 2), (8, 8), (4, 4), (4, 4)]

/-- `FAN_EVENT_METADATA_LEN = mem::size_of::<FanotifyEvent>()`
(line 54). -/
def FAN_EVENT_METADATA_LEN : Nat := reprCSize fanotifyEventFields

/-- The wrapping cast `x as usize` applied to the `isize` return value of
`libc::read` on a 64-bit platform: reinterpretation modulo `2^64`. -/
def isizeAsUsize (x : Int) : Nat := (x % (2 ^ 64)).toNat

/-- The record count computed by `read_fanotify` (lines 135-148): the
`slice::from_raw_parts` length `sizeof as usize / *FAN_EVENT_METADATA_LEN`
where `sizeof` is the raw return value of
`libc::read(fanotify_fd, buffer, FAN_EVENT_METADATA_LEN * 1024)`. -/
def read_fanotify_count (readRet : Int) : Nat :=
  isizeAsUsize readRet / FAN_EVENT_METADATA_LEN

/-- The `EventInfo` JSON lines among a standard-output trace, in order:
the structured part of the output, excluding the SIGTERM notice. -/
def emittedInfos (out : List OutItem) : List EventInfo :=
  out.filterMap fun
    | .eventJson info => some info
    | .sigtermMsg => none

/-- The paths of the emitted `EventInfo` lines, in emission order. -/
def emittedPaths (out : List OutItem) : List String :=
  (emittedInfos out).map (·.path)

/-- Specification-side description of first-seen order: the subsequence
of `ps` keeping the first occurrence of each path not already in `seen`.
Used to state what the dedup logic of `handle_event` achieves; written
with `List.contains` exactly as the code tests membership. -/
def firstSeenOrder (seen : List String) : List String → List String
  | [] => []
  | p :: ps =>
    if seen.contains p then firstSeenOrder seen ps
    else p :: firstSeenOrder (seen ++ [p]) ps

/-- A raw record whose handling succeeds end to end: its descriptor
resolves to `path`, `fs::metadata` yields `size`, and the stdout write
succeeds. -/
structure OkRecord where
  fd : Int
  path : String
  size : Nat
  elapsed : Nat
deriving DecidableEq, Repr

/-- The `RecordRun` of a fully successful record. -/
def OkRecord.toRun (r : OkRecord) : RecordRun :=
  { fd := r.fd, resolveRes := .ok r.path, metaRes := .ok r.size,
    elapsed := r.elapsed, sendRes := .ok () }

/-- The state carried by a `StepRes`. -/
def StepRes.state : StepRes → ChildState
  | .next s => s
  | .broke s => s

/-- The emission invariant of the wait loop: no path has been emitted
twice, and every emitted path is recorded in `event_duplicate`. -/
def EmitInv (s : ChildState) : Prop :=
  (emittedPaths s.stdoutTrace).Nodup ∧
  ∀ p ∈ emittedPaths s.stdoutTrace, p ∈ s.dup

/-- Whether a poll outcome reports termination readiness (`POLLIN` on the
SIGTERM self-pipe reader `fds[1]`). -/
def PollOutcome.termReadyOf : PollOutcome → Bool
  | .polled _ _ term _ => term
  | .pollErr _ => false

/-- The fatal-at-startup failures named by the error-handling taxonomy,
as conditions on this process run's environment: a namespace-join failure
when a target pid is supplied, or — in the child branch — a
watch-channel (`fanotify_init`) failure, a mount-mark (`fanotify_mark`)
failure, or a termination-channel registration failure (socket-pair
creation or SIGTERM handler registration). -/
def startupFailure (env : MainEnv) : Prop :=
  (env.pidEnv.isSome = true ∧ ∃ e, env.joinRes = .error e) ∨
  (env.forkRes = .child ∧
    ((∃ e, env.startEnv.initRes = .error e) ∨
     (∃ e, env.startEnv.markRes = .error e) ∨
     env.startEnv.child.socketPairOk = false ∨
     env.startEnv.child.sigRegisterOk = false))

/-- What actually happens on a fatal-at-startup failure: the affected
process never enters the wait loop, writes nothing to standard output,
logs at least one diagnostic line — and still exits with status 0. -/
def abortedSilently (mr : MainResult) : Prop :=
  mr.enteredLoop = false ∧ mr.stdoutTrace = [] ∧
  mr.stderrTrace ≠ [] ∧ mr.exitCode = 0

/-- A record that resolves to `/data/a` of size 512 and is sent
successfully: the concrete input of the claim-C1 counterexample. -/
def streamRecord : OkRecord :=
  { fd := 4, path := "/data/a", size := 512, elapsed := 7 }

/-- A poll trace with a single fanotify-ready iteration and no
termination readiness anywhere. -/
def streamTrace : List PollOutcome :=
  [.polled 1 true false [streamRecord.toRun]]

/-- A run environment whose only failure is the namespace join: a target
pid is present and opening `/proc/{pid}/ns/pid` fails with `ENOENT`. -/
def joinFailEnv : MainEnv :=
  { pidEnv := some "4242", joinRes := .error (.ioOpen 2),
    forkRes := .child,
    startEnv := { initRes := .ok 3, markRes := .ok (),
                  child := { socketPairOk := true, sigRegisterOk := true,
                             pollTrace := [] } } }

/-- A parent-branch environment whose child exits normally with status 0
and whose `getpgid` succeeds. -/
def normalExitEnv : MainEnv :=
  { pidEnv := none, joinRes := .ok (),
    forkRes := .parent 7 (.ok 7) (.exitedNormally 7 0),
    startEnv := { initRes := .ok 3, markRes := .ok (),
                  child := { socketPairOk := true, sigRegisterOk := true,
                             pollTrace := [] } } }

/-! ## Helper lemmas -/

/-- `handle_event` can only do one of three things: fail leaving the
vector untouched and writing nothing; succeed as a duplicate no-op; or
succeed emitting exactly one JSON line for a path not yet recorded,
appending that path. -/
theorem handle_event_cases (r : RecordRun) (d : List String) :
    (∃ e, handle_event r d = (.error e, d, [])) ∨
    handle_event r d = (.ok (), d, []) ∨
    (∃ info : EventInfo, d.contains info.path = false ∧
      handle_event r d = (.ok (), d ++ [info.path], [.eventJson info])) := by
  unfold handle_event generate_event_info
  rcases r with ⟨fd, resolveRes, metaRes, elapsed, sendRes⟩
  rcases resolveRes with e | path
  · exact .inl ⟨.ioErr e, rfl⟩
  rcases metaRes with e | size
  · exact .inl ⟨.ioErr e, rfl⟩
  simp only [Except.map]
  by_cases hdup : path ∈ d
  · exact .inr (.inl (by simp [hdup]))
  · rcases sendRes with e | u
    · exact .inl ⟨.ioErr e, by simp [hdup]⟩
    · refine .inr (.inr ⟨{ path := path, size := size, elapsed := elapsed }, ?_, ?_⟩)
      · simpa using hdup
      · simp [hdup]

/-- When `handle_event` fails, it fails before any mutation: the
`event_duplicate` vector is returned unchanged and nothing is written. -/
theorem handle_event_error_eq (r : RecordRun) (d : List String)
    (e : SendErr) (h : (handle_event r d).1 = .error e) :
    handle_event r d = (.error e, d, []) := by
  rcases handle_event_cases r d with ⟨e1, he⟩ | he | ⟨info, _, he⟩
  · rw [he] at h ⊢
    cases h
    rfl
  · rw [he] at h
    cases h
  · rw [he] at h
    cases h

/-- On a fully successful record, `handle_event` is exactly: no-op when
the path is already recorded, otherwise emit one line and record it. -/
theorem handle_event_toRun (r : OkRecord) (d : List String) :
    handle_event r.toRun d =
      if r.path ∈ d then (.ok (), d, [])
      else (.ok (), d ++ [r.path],
        [.eventJson { path := r.path, size := r.size, elapsed := r.elapsed }]) := by
  unfold handle_event OkRecord.toRun generate_event_info
  simp [Except.map]

/-- Every iteration of the record loop closes exactly the record's
descriptor, whatever `handle_event` did. -/
theorem processRecord_closed (s : ChildState) (r : RecordRun) :
    (processRecord s r).closed = s.closed ++ [r.fd] := by
  unfold processRecord
  rcases h : handle_event r s.dup with ⟨res, d, out⟩
  cases res <;> simp [h]

/-- The close trace of a batch extends the previous trace by exactly the
drained records' descriptors, in order. -/
theorem processRecords_closed (rs : List RecordRun) (s : ChildState) :
    (processRecords s rs).closed = s.closed ++ rs.map (·.fd) := by
  induction rs generalizing s with
  | nil => simp [processRecords]
  | cons r rest ih =>
    have hstep := processRecord_closed s r
    calc (processRecords s (r :: rest)).closed
        = (processRecords (processRecord s r) rest).closed := rfl
      _ = (processRecord s r).closed ++ rest.map (·.fd) := ih _
      _ = s.closed ++ [r.fd] ++ rest.map (·.fd) := by rw [hstep]
      _ = s.closed ++ (r :: rest).map (·.fd) := by simp

/-- Emitted infos distribute over appended output. -/
theorem emittedInfos_append (a b : List OutItem) :
    emittedInfos (a ++ b) = emittedInfos a ++ emittedInfos b := by
  simp [emittedInfos]

/-- Emitted paths distribute over appended output. -/
theorem emittedPaths_append (a b : List OutItem) :
    emittedPaths (a ++ b) = emittedPaths a ++ emittedPaths b := by
  simp [emittedPaths, emittedInfos_append]

/-- The SIGTERM notice contributes no emitted path. -/
theorem emittedPaths_sigterm (a : List OutItem) :
    emittedPaths (a ++ [.sigtermMsg]) = emittedPaths a := by
  simp [emittedPaths_append, emittedPaths, emittedInfos]

/-- Membership in the first-seen sublist: exactly the paths of the input
that are not blocked by `seen`. -/
theorem firstSeenOrder_cons (seen : List String) (p : String)
    (ps : List String) :
    firstSeenOrder seen (p :: ps) =
      if seen.contains p then firstSeenOrder seen ps
      else p :: firstSeenOrder (seen ++ [p]) ps := rfl

/-- Membership in the first-seen sublist: exactly the paths of the input
that are not blocked by `seen`. -/
theorem mem_firstSeenOrder (p : String) (ps seen : List String) :
    p ∈ firstSeenOrder seen ps ↔ p ∈ ps ∧ p ∉ seen := by
  induction ps generalizing seen with
  | nil => simp [firstSeenOrder]
  | cons q qs ih =>
    rw [firstSeenOrder_cons]
    by_cases hq : q ∈ seen
    · rw [if_pos (by simpa using hq), ih]
      simp only [List.mem_cons]
      constructor
      · rintro ⟨h1, h2⟩
        exact ⟨Or.inr h1, h2⟩
      · rintro ⟨rfl | h1, h2⟩
        · exact absurd hq h2
        · exact ⟨h1, h2⟩
    · rw [if_neg (by simpa using hq)]
      simp only [List.mem_cons, ih, List.mem_append, List.mem_singleton]
      constructor
      · rintro (rfl | ⟨h1, h2⟩)
        · exact ⟨Or.inl rfl, hq⟩
        · exact ⟨Or.inr h1, fun hc => h2 (Or.inl hc)⟩
      · rintro ⟨rfl | h1, h2⟩
        · exact Or.inl rfl
        · by_cases hpq : p = q
          · exact Or.inl hpq
          · exact Or.inr ⟨h1, by simp [h2, hpq]⟩

/-- The first-seen sublist never repeats a path. -/
theorem nodup_firstSeenOrder (ps seen : List String) :
    (firstSeenOrder seen ps).Nodup := by
  induction ps generalizing seen with
  | nil => simp [firstSeenOrder]
  | cons q qs ih =>
    rw [firstSeenOrder_cons]
    by_cases hq : q ∈ seen
    · rw [if_pos (by simpa using hq)]
      exact ih seen
    · rw [if_neg (by simpa using hq)]
      refine List.nodup_cons.mpr ⟨?_, ih _⟩
      rw [mem_firstSeenOrder]
      rintro ⟨-, h2⟩
      simp at h2

/-- A path occurring in the inputs and not blocked by `seen` occurs in
the first-seen sublist exactly once. -/
theorem count_firstSeenOrder (p : String) (ps seen : List String)
    (h1 : p ∈ ps) (h2 : p ∉ seen) :
    (firstSeenOrder seen ps).count p = 1 :=
  List.count_eq_one_of_mem (nodup_firstSeenOrder ps seen)
    ((mem_firstSeenOrder p ps seen).mpr ⟨h1, h2⟩)

/-- Processing a batch of fully successful records: the duplicate vector
and the emitted paths both grow by exactly the first-seen sublist of the
batch's paths, in order. -/
theorem processRecords_okRuns (rs : List OkRecord) (s : ChildState) :
    (processRecords s (rs.map OkRecord.toRun)).dup
        = s.dup ++ firstSeenOrder s.dup (rs.map (·.path)) ∧
    emittedPaths (processRecords s (rs.map OkRecord.toRun)).stdoutTrace
        = emittedPaths s.stdoutTrace ++ firstSeenOrder s.dup (rs.map (·.path)) := by
  induction rs generalizing s with
  | nil => simp [processRecords, firstSeenOrder]
  | cons r rest ih =>
    have hstep : processRecords s ((r :: rest).map OkRecord.toRun)
        = processRecords (processRecord s r.toRun) (rest.map OkRecord.toRun) := rfl
    have hmapcons : (r :: rest).map (·.path) = r.path :: rest.map (·.path) := rfl
    by_cases hdup : r.path ∈ s.dup
    · have hpr : processRecord s r.toRun
          = ⟨s.dup, s.stdoutTrace, s.stderrTrace, s.closed ++ [r.fd]⟩ := by
        unfold processRecord
        rw [handle_event_toRun, if_pos hdup]
        simp [OkRecord.toRun]
      have hr := ih (processRecord s r.toRun)
      rw [hpr] at hr
      dsimp only at hr
      rw [hstep, hpr, hr.1, hr.2, hmapcons, firstSeenOrder_cons,
        if_pos (by simpa using hdup)]
      exact ⟨rfl, rfl⟩
    · have hpr : processRecord s r.toRun
          = ⟨s.dup ++ [r.path],
             s.stdoutTrace ++ [.eventJson ⟨r.path, r.size, r.elapsed⟩],
             s.stderrTrace, s.closed ++ [r.fd]⟩ := by
        unfold processRecord
        rw [handle_event_toRun, if_neg hdup]
        simp [OkRecord.toRun]
      have hr := ih (processRecord s r.toRun)
      rw [hpr] at hr
      dsimp only at hr
      rw [hstep, hpr, hr.1, hr.2, hmapcons, firstSeenOrder_cons,
        if_neg (by simpa using hdup)]
      constructor
      · simp
      · rw [emittedPaths_append]
        simp [emittedPaths, emittedInfos]

/-- One record handling preserves the emission invariant, whatever the
record's outcomes are. -/
theorem emitInv_processRecord (s : ChildState) (r : RecordRun)
    (h : EmitInv s) : EmitInv (processRecord s r) := by
  rcases handle_event_cases r s.dup with ⟨e, he⟩ | he | ⟨info, hc, he⟩
  · unfold processRecord
    rw [he]
    exact ⟨by simpa using h.1, by simpa using h.2⟩
  · unfold processRecord
    rw [he]
    exact ⟨by simpa using h.1, by simpa using h.2⟩
  · unfold processRecord
    rw [he]
    have hnotdup : info.path ∉ s.dup := by simpa using hc
    have hnotemit : info.path ∉ emittedPaths s.stdoutTrace := fun hmem =>
      hnotdup (h.2 info.path hmem)
    constructor
    · rw [emittedPaths_append]
      simp only [List.nodup_append]
      refine ⟨h.1, by simp [emittedPaths, emittedInfos], ?_⟩
      intro p hp
      simp only [emittedPaths, emittedInfos, List.filterMap_cons,
        List.filterMap_nil, List.map_cons, List.map_nil]
      intro hp2
      simp only [List.mem_singleton] at hp2
      subst hp2
      exact hnotemit hp
    · intro p hp
      rw [emittedPaths_append] at hp
      rcases List.mem_append.mp hp with hp | hp
      · exact List.mem_append.mpr (Or.inl (h.2 p hp))
      · simp only [emittedPaths, emittedInfos, List.filterMap_cons,
          List.filterMap_nil, List.map_cons, List.map_nil,
          List.mem_singleton] at hp
        subst hp
        simp

/-- A whole batch preserves the emission invariant. -/
theorem emitInv_processRecords (rs : List RecordRun) (s : ChildState)
    (h : EmitInv s) : EmitInv (processRecords s rs) := by
  induction rs generalizing s with
  | nil => exact h
  | cons r rest ih => exact ih _ (emitInv_processRecord s r h)

/-- One loop iteration preserves the emission invariant in both the
continue and the break case. -/
theorem emitInv_loopStep (s : ChildState) (o : PollOutcome)
    (h : EmitInv s) : EmitInv ((loopStep s o).state) := by
  unfold loopStep
  rcases o with ⟨n, fan, term, records⟩ | e
  all_goals dsimp only
  · by_cases hn : n ≤ 0
    · rw [if_pos hn]
      exact ⟨h.1, h.2⟩
    · rw [if_neg hn]
      have h1 : EmitInv (if fan = true then processRecords s records else s) := by
        by_cases hf : fan = true
        · rw [if_pos hf]
          exact emitInv_processRecords records s h
        · rw [if_neg hf]
          exact h
      by_cases ht : term = true
      · rw [if_pos ht]
        simp only [StepRes.state]
        refine ⟨?_, ?_⟩
        · rw [emittedPaths_sigterm]
          exact h1.1
        · intro p hp
          rw [emittedPaths_sigterm] at hp
          exact h1.2 p hp
      · rw [if_neg ht]
        exact h1
  · by_cases he : e = EINTR
    · rw [if_pos he]
      exact h
    · rw [if_neg he]
      exact ⟨h.1, h.2⟩

/-- A whole run of the wait loop preserves the emission invariant. -/
theorem emitInv_runLoop (tr : List PollOutcome) (s : ChildState)
    (h : EmitInv s) : EmitInv ((runLoop s tr).state) := by
  induction tr generalizing s with
  | nil => exact h
  | cons o os ih =>
    unfold runLoop
    rcases hstep : loopStep s o with s1 | s1
    · have := emitInv_loopStep s o h
      rw [hstep] at this
      exact ih s1 this
    · have := emitInv_loopStep s o h
      rw [hstep] at this
      exact this

/-- The initial loop state satisfies the emission invariant. -/
theorem emitInv_init : EmitInv initChildState := by
  constructor
  · simp [initChildState, emittedPaths, emittedInfos]
  · intro p hp
    simp [initChildState, emittedPaths, emittedInfos] at hp

/-! ## Claim theorems -/

/-- C4: for every sequence of raw access records drained from the watch
channel and processed by the event loop — whatever each record's
path-resolution, metadata-fetch and write outcomes are — the trace of
`close_fd` calls is exactly the records' embedded file descriptors, in
order: each processed record's descriptor is closed exactly once,
including when resolution or metadata fetch fails. -/
theorem every_processed_fd_closed_exactly_once (rs : List RecordRun) :
    (processRecords initChildState rs).closed = rs.map (·.fd) := by
  rw [processRecords_closed]
  rfl

/-- C3: over any fully successfully processed record sequence of a run,
the paths of the emitted `EventInfo` lines, in output order, are exactly
the distinct resolved paths in first-seen order, however many repeat
records for already-seen paths interleave. -/
theorem emission_order_matches_first_seen (rs : List OkRecord) :
    emittedPaths (processRecords initChildState (rs.map OkRecord.toRun)).stdoutTrace
      = firstSeenOrder [] (rs.map (·.path)) := by
  have hr := processRecords_okRuns rs initChildState
  rw [hr.2]
  rfl

/-- C2: for every sequence of successfully processed raw access records
in one run and every distinct resolved path occurring in it (the file
descriptors may differ from record to record), exactly one `EventInfo`
for that path is present in the emitted output. -/
theorem dedup_exactly_one_eventInfo_per_path (rs : List OkRecord)
    (p : String) (h : p ∈ rs.map (·.path)) :
    (emittedPaths
        (processRecords initChildState (rs.map OkRecord.toRun)).stdoutTrace).count p
      = 1 := by
  have hr := processRecords_okRuns rs initChildState
  rw [hr.2]
  have h0 : emittedPaths initChildState.stdoutTrace = [] := rfl
  have h0d : initChildState.dup = ([] : List String) := rfl
  rw [h0, h0d, List.nil_append]
  exact count_firstSeenOrder p (rs.map (·.path)) [] h (by simp)

/-- Witness for `dedup_exactly_one_eventInfo_per_path`: three records,
two distinct paths, `/data/a` accessed twice through different
descriptors, emitted once. -/
theorem dedup_exactly_one_witness :
    (emittedPaths
        (processRecords initChildState
          (([⟨3, "/data/a", 512, 1⟩, ⟨4, "/data/b", 1024, 2⟩,
             ⟨5, "/data/a", 512, 3⟩] : List OkRecord).map OkRecord.toRun)).stdoutTrace).count
        "/data/a" = 1 :=
  dedup_exactly_one_eventInfo_per_path
    [⟨3, "/data/a", 512, 1⟩, ⟨4, "/data/b", 1024, 2⟩, ⟨5, "/data/a", 512, 3⟩]
    "/data/a" (by simp)

/-- C5: a per-event failure of `handle_event` (resolution, metadata or
write failure) only skips that record: the failure is logged to standard
error, the duplicate vector and the standard output are untouched (no
`EventInfo` is produced), the descriptor is still closed, the batch goes
on with the remaining records, and the wait loop keeps looping. -/
theorem per_event_failure_is_skipped (s : ChildState) (r : RecordRun)
    (rest : List RecordRun) (e : SendErr) (n : Int)
    (hn : 0 < n) (h : (handle_event r s.dup).1 = .error e) :
    processRecord s r
      = { s with
          stderrTrace := s.stderrTrace ++ [.handleFail r.fd],
          closed := s.closed ++ [r.fd] } ∧
    processRecords s (r :: rest) = processRecords (processRecord s r) rest ∧
    loopStep s (.polled n true false (r :: rest))
      = .next (processRecords s (r :: rest)) := by
  have he := handle_event_error_eq r s.dup e h
  refine ⟨?_, rfl, ?_⟩
  · unfold processRecord
    rw [he]
    simp
  · unfold loopStep
    dsimp only
    rw [if_neg (by omega : ¬ n ≤ 0)]
    simp

/-- Witness for `per_event_failure_is_skipped` at a record whose
descriptor fails to resolve (`readlink` gives `ENOENT`). -/
theorem per_event_failure_is_skipped_witness :
    processRecord initChildState ⟨5, .error 2, .ok 0, 0, .ok ()⟩
      = { initChildState with
          stderrTrace := initChildState.stderrTrace ++ [.handleFail 5],
          closed := initChildState.closed ++ [5] } ∧
    processRecords initChildState [⟨5, .error 2, .ok 0, 0, .ok ()⟩]
      = processRecords (processRecord initChildState ⟨5, .error 2, .ok 0, 0, .ok ()⟩) [] ∧
    loopStep initChildState (.polled 1 true false [⟨5, .error 2, .ok 0, 0, .ok ()⟩])
      = .next (processRecords initChildState [⟨5, .error 2, .ok 0, 0, .ok ()⟩]) :=
  per_event_failure_is_skipped initChildState ⟨5, .error 2, .ok 0, 0, .ok ()⟩ []
    (.ioErr 2) 1 (by decide) (by decide)

/-- C1 counterexample: the claim that no `EventInfo` is written to
standard output before termination readiness is observed is false on the
code — emission is streamed per event, not batched at shutdown. Concrete
input: a poll trace with one fanotify-ready iteration and no termination
readiness anywhere; the run is still looping, yet one `EventInfo` line
has already been written to standard output. -/
theorem eventInfo_emitted_before_termination :
    (∀ o ∈ streamTrace, o.termReadyOf = false) ∧
    emittedInfos ((runLoop initChildState streamTrace).state).stdoutTrace
      = [{ path := "/data/a", size := 512, elapsed := 7 }] := by
  constructor
  · intro o ho
    simp only [streamTrace, List.mem_singleton] at ho
    subst ho
    rfl
  · rfl

/-- C1 (amended): each distinct path's `EventInfo` is written to
standard output at most once per process lifetime, but the write is
triggered by the first successful handling of that path during watch
readiness (streamed), not by the termination notification; observing
termination readiness makes the loop print the SIGTERM notice and break
immediately after the current drain, so nothing further is written
afterwards. -/
theorem emission_per_path_once_and_termination_breaks
    (tr rest : List PollOutcome) (s : ChildState) (n : Int)
    (fan : Bool) (records : List RecordRun) (hn : 0 < n) :
    (emittedPaths ((runLoop initChildState tr).state).stdoutTrace).Nodup ∧
    runLoop s (.polled n fan true records :: rest)
      = .stopped { (if fan then processRecords s records else s) with
          stdoutTrace :=
            (if fan then processRecords s records else s).stdoutTrace
              ++ [.sigtermMsg] } := by
  constructor
  · exact (emitInv_runLoop tr initChildState emitInv_init).1
  · unfold runLoop loopStep
    dsimp only
    rw [if_neg (by omega : ¬ n ≤ 0)]
    simp

/-- Witness for `emission_per_path_once_and_termination_breaks`: the
one-record no-termination trace for the first part, and a
termination-ready empty-drain iteration for the second. -/
theorem emission_per_path_once_witness :
    (emittedPaths ((runLoop initChildState streamTrace).state).stdoutTrace).Nodup ∧
    runLoop initChildState (.polled 1 false true [] :: [])
      = .stopped { (if false then processRecords initChildState [] else initChildState) with
          stdoutTrace :=
            (if false then processRecords initChildState [] else initChildState).stdoutTrace
              ++ [.sigtermMsg] } :=
  emission_per_path_once_and_termination_breaks streamTrace [] initChildState 1
    false [] (by decide)

/-- C6: a wait interrupted by `EINTR` is retried transparently with the
loop state unchanged; any other poll failure appends exactly one
diagnostic line, breaks the loop — the remaining trace is never
observed — and writes nothing to standard output (the termination branch
and its emission path are not taken). -/
theorem eintr_retried_other_poll_errors_stop (s : ChildState) (e : Nat)
    (rest : List PollOutcome) (he : e ≠ EINTR) :
    loopStep s (.pollErr EINTR) = .next s ∧
    loopStep s (.pollErr e)
      = .broke { s with stderrTrace := s.stderrTrace ++ [.pollError e] } ∧
    runLoop s (.pollErr e :: rest)
      = .stopped { s with stderrTrace := s.stderrTrace ++ [.pollError e] } ∧
    ({ s with stderrTrace := s.stderrTrace ++ [.pollError e] } : ChildState).stdoutTrace
      = s.stdoutTrace := by
  have h2 : loopStep s (.pollErr e)
      = .broke { s with stderrTrace := s.stderrTrace ++ [.pollError e] } := by
    unfold loopStep
    dsimp only
    rw [if_neg he]
  refine ⟨?_, h2, ?_, rfl⟩
  · unfold loopStep
    dsimp only
    rw [if_pos rfl]
  · unfold runLoop
    rw [h2]

/-- Witness for `eintr_retried_other_poll_errors_stop` at the concrete
poll error 5 (`EIO`). -/
theorem eintr_retried_witness :
    loopStep initChildState (.pollErr EINTR) = .next initChildState ∧
    loopStep initChildState (.pollErr 5)
      = .broke { initChildState with
          stderrTrace := initChildState.stderrTrace ++ [.pollError 5] } ∧
    runLoop initChildState (.pollErr 5 :: [])
      = .stopped { initChildState with
          stderrTrace := initChildState.stderrTrace ++ [.pollError 5] } ∧
    ({ initChildState with
        stderrTrace := initChildState.stderrTrace ++ [.pollError 5] } : ChildState).stdoutTrace
      = initChildState.stdoutTrace :=
  eintr_retried_other_poll_errors_stop initChildState 5 [] (by decide)

/-- C9: a record whose handling fails leaves both the duplicate vector
and the emitted output exactly as they were, so a later record resolving
to the same (still unseen) path is not treated as a duplicate: it
produces and emits an `EventInfo` for that path. -/
theorem failure_leaves_dedup_and_output_unchanged (s : ChildState)
    (r r2 : RecordRun) (e : SendErr) (p : String) (size : Nat)
    (h : (handle_event r s.dup).1 = .error e)
    (h2 : r2.resolveRes = .ok p) (h3 : r2.metaRes = .ok size)
    (h4 : r2.sendRes = .ok ()) (h5 : p ∉ s.dup) :
    (processRecord s r).dup = s.dup ∧
    (processRecord s r).stdoutTrace = s.stdoutTrace ∧
    (processRecord (processRecord s r) r2).stdoutTrace
      = s.stdoutTrace ++ [.eventJson { path := p, size := size, elapsed := r2.elapsed }] ∧
    (processRecord (processRecord s r) r2).dup = s.dup ++ [p] := by
  have he := handle_event_error_eq r s.dup e h
  have hpr : processRecord s r
      = ⟨s.dup, s.stdoutTrace, s.stderrTrace ++ [.handleFail r.fd],
         s.closed ++ [r.fd]⟩ := by
    unfold processRecord
    rw [he]
    simp
  have hh2 : handle_event r2 s.dup
      = (.ok (), s.dup ++ [p],
         [.eventJson { path := p, size := size, elapsed := r2.elapsed }]) := by
    rcases r2 with ⟨fd2, rr, mr, el, sr⟩
    simp only at h2 h3 h4 ⊢
    subst h2
    subst h3
    subst h4
    unfold handle_event generate_event_info
    simp [Except.map, h5]
  have hpr2 : processRecord (processRecord s r) r2
      = ⟨s.dup ++ [p],
         s.stdoutTrace ++ [.eventJson { path := p, size := size, elapsed := r2.elapsed }],
         s.stderrTrace ++ [.handleFail r.fd],
         (s.closed ++ [r.fd]) ++ [r2.fd]⟩ := by
    rw [hpr]
    unfold processRecord
    dsimp only
    rw [hh2]
  exact ⟨by rw [hpr], by rw [hpr], by rw [hpr2], by rw [hpr2]⟩

/-- Witness for `failure_leaves_dedup_and_output_unchanged`: a
resolution failure on descriptor 5, followed by a record on descriptor 6
resolving to the same path that then emits. -/
theorem failure_leaves_dedup_witness :
    (processRecord initChildState ⟨5, .error 2, .ok 0, 0, .ok ()⟩).dup
      = initChildState.dup ∧
    (processRecord initChildState ⟨5, .error 2, .ok 0, 0, .ok ()⟩).stdoutTrace
      = initChildState.stdoutTrace ∧
    (processRecord (processRecord initChildState ⟨5, .error 2, .ok 0, 0, .ok ()⟩)
        ⟨6, .ok "/data/a", .ok 512, 9, .ok ()⟩).stdoutTrace
      = initChildState.stdoutTrace
          ++ [.eventJson { path := "/data/a", size := 512, elapsed := 9 }] ∧
    (processRecord (processRecord initChildState ⟨5, .error 2, .ok 0, 0, .ok ()⟩)
        ⟨6, .ok "/data/a", .ok 512, 9, .ok ()⟩).dup
      = initChildState.dup ++ ["/data/a"] :=
  failure_leaves_dedup_and_output_unchanged initChildState
    ⟨5, .error 2, .ok 0, 0, .ok ()⟩ ⟨6, .ok "/data/a", .ok 512, 9, .ok ()⟩
    (.ioErr 2) "/data/a" 512 (by decide) rfl rfl rfl (by decide)

/-- C7 counterexample: on a namespace-join failure the process does
abort before the wait loop with no output, but the failure is NOT
observable as a non-zero result — `main` returns `()` on this path and
the process exit status is 0. -/
theorem startup_failure_exit_code_zero :
    (mainRun joinFailEnv).stdoutTrace = [] ∧
    (mainRun joinFailEnv).enteredLoop = false ∧
    (mainRun joinFailEnv).exitCode = 0 := ⟨rfl, rfl, rfl⟩

/-- C7 (amended): every fatal-at-startup failure (namespace join,
`fanotify_init`, `fanotify_mark`, socket-pair creation or SIGTERM
registration) makes the affected process abort before entering the wait
loop, emit nothing to standard output, and log the failure to the
diagnostic stream — but the process exit status is 0, so the failure is
observable only through the diagnostic log, not as a non-zero result. -/
theorem startup_failure_aborts_silently (env : MainEnv)
    (h : startupFailure env) :
    abortedSilently (mainRun env) := by
  rcases env with ⟨pidEnv, joinRes, forkRes, startEnv⟩
  rcases startEnv with ⟨initRes, markRes, child⟩
  rcases child with ⟨spOk, srOk, tr⟩
  rcases h with ⟨hpid, e, hjoin⟩ | ⟨hfork, hfail⟩
  · simp only at hjoin
    subst hjoin
    rcases pidEnv with _ | pid
    · simp at hpid
    · simp [mainRun, abortedSilently]
  · simp only at hfork
    subst hfork
    have hforked : abortedSilently (mainForked
        ⟨pidEnv, joinRes, .child, ⟨initRes, markRes, ⟨spOk, srOk, tr⟩⟩⟩) := by
      rcases hfail with ⟨e, hinit⟩ | ⟨e, hmark⟩ | hsp | hsr
      · simp only at hinit
        subst hinit
        simp [mainForked, start_fanotify, abortedSilently]
      · simp only at hmark
        subst hmark
        rcases initRes with e2 | fd
        · simp [mainForked, start_fanotify, abortedSilently]
        · simp [mainForked, start_fanotify, abortedSilently]
      · simp only at hsp
        subst hsp
        rcases initRes with e2 | fd
        · simp [mainForked, start_fanotify, abortedSilently]
        · rcases markRes with e2 | u
          · simp [mainForked, start_fanotify, abortedSilently]
          · simp [mainForked, start_fanotify, handle_fanotify_event,
              abortedSilently, initChildState]
      · simp only at hsr
        subst hsr
        rcases initRes with e2 | fd
        · simp [mainForked, start_fanotify, abortedSilently]
        · rcases markRes with e2 | u
          · simp [mainForked, start_fanotify, abortedSilently]
          · cases spOk
            · simp [mainForked, start_fanotify, handle_fanotify_event,
                abortedSilently, initChildState]
            · simp [mainForked, start_fanotify, handle_fanotify_event,
                abortedSilently, initChildState]
    rcases pidEnv with _ | pid
    · exact hforked
    · rcases joinRes with e2 | u
      · simp [mainRun, abortedSilently]
      · exact hforked

/-- Witness for `startup_failure_aborts_silently` at the concrete
namespace-join failure environment. -/
theorem startup_failure_aborts_silently_witness :
    abortedSilently (mainRun joinFailEnv) :=
  startup_failure_aborts_silently joinFailEnv
    (Or.inl ⟨rfl, .ioOpen 2, rfl⟩)

/-- C8 counterexample: a normal child exit does NOT produce its own
log line — `WaitStatus::Exited` falls into the `_ => {}` arm. In the
concrete parent run, the only diagnostic line is the fork notice; the
exit classification contributes nothing. -/
theorem normal_child_exit_not_logged :
    classifyWait (.exitedNormally 7 0) = [] ∧
    (mainRun normalExitEnv).stderrTrace = [.forkedInfo 7 7] := ⟨rfl, rfl⟩

/-- C8 (amended): after forking, the parent waits for the child's exit
and logs signaled exits, stopped exits and wait errors each with a
distinct line; a normal child exit (like every other status falling into
the wildcard arm) produces no log line of its own. -/
theorem parent_wait_logging (child pgid pid : Int) (sig : Nat)
    (core : Bool) (code : Int) (e : Nat) (w : WaitRes) (se : StartEnv) :
    classifyWait (.signaled pid sig core) = [.childSignaled pid sig] ∧
    classifyWait (.stoppedBySig pid sig) = [.childStopped pid sig] ∧
    classifyWait (.waitErr e) = [.waitFail e] ∧
    classifyWait (.exitedNormally pid code) = [] ∧
    ErrItem.childSignaled pid sig ≠ ErrItem.childStopped pid sig ∧
    (mainRun { pidEnv := none, joinRes := .ok (),
               forkRes := .parent child (.ok pgid) w,
               startEnv := se }).stderrTrace
      = ErrItem.forkedInfo child pgid :: classifyWait w := by
  refine ⟨rfl, rfl, rfl, rfl, by simp, rfl⟩

/-- C10: `read_fanotify` computes the record count as the raw `read`
return value cast `as usize` (wrapping, modulo `2^64`) divided by
`mem::size_of::<FanotifyEvent>()` = 24; for a successful read the count
is the byte count over 24 and is at most 1024 (the buffer holds 1024
records), and an empty read gives an empty batch — but a failed read
returning -1 wraps to `2^64 - 1`, yielding the huge count
`(2^64 - 1) / 24` instead of an empty list. -/
theorem read_fanotify_count_wrapping (r : Int) (h1 : 0 ≤ r)
    (h2 : r ≤ 24 * 1024) :
    FAN_EVENT_METADATA_LEN = 24 ∧
    read_fanotify_count r = r.toNat / 24 ∧
    read_fanotify_count r ≤ 1024 ∧
    read_fanotify_count 0 = 0 ∧
    read_fanotify_count (-1) = (2 ^ 64 - 1) / FAN_EVENT_METADATA_LEN ∧
    1024 < read_fanotify_count (-1) := by
  have hlen : FAN_EVENT_METADATA_LEN = 24 := rfl
  have hb : (24 * 1024 : Int) < 2 ^ 64 := by norm_num
  have hmod : r % (2 ^ 64) = r := Int.emod_eq_of_lt h1 (by omega)
  have hcount : read_fanotify_count r = r.toNat / 24 := by
    unfold read_fanotify_count isizeAsUsize
    rw [hmod, hlen]
  refine ⟨hlen, hcount, ?_, rfl, rfl, by decide⟩
  rw [hcount]
  have h3 : r.toNat ≤ 24 * 1024 := by omega
  calc r.toNat / 24 ≤ 24 * 1024 / 24 := Nat.div_le_div_right h3
    _ = 1024 := by norm_num

/-- Witness for `read_fanotify_count_wrapping` at a successful 48-byte
read (two records). -/
theorem read_fanotify_count_wrapping_witness :
    FAN_EVENT_METADATA_LEN = 24 ∧
    read_fanotify_count 48 = (48 : Int).toNat / 24 ∧
    read_fanotify_count 48 ≤ 1024 ∧
    read_fanotify_count 0 = 0 ∧
    read_fanotify_count (-1) = (2 ^ 64 - 1) / FAN_EVENT_METADATA_LEN ∧
    1024 < read_fanotify_count (-1) :=
  read_fanotify_count_wrapping 48 (by decide) (by decide)

end OptimizerServer
